import Mathlib

/-!
Verification of the DarkNet graph-construction code
(`tensorflow_/models/darknet.py`).

The Python code builds a TensorFlow computation graph by chaining calls to
primitive graph operations (`conv2d`, `batchnorm`, `maxpool2d`,
`tf.nn.leaky_relu`, `tf.layers.average_pooling2d`, `tf.layers.flatten`).
We embed that construction shallowly: a model build is the list of primitive
operations it appends to the graph, in order, with every argument the Python
code passes recorded in the operation.  On top of the trace we give the
primitives their shape semantics and trainable-parameter counts, so that
output shapes and total parameter counts of the assembled graphs can be
computed.
-/

/-- A primitive graph operation, with the arguments the builder passes to it.
`conv` records declared input channels, output channels, kernel size, padding
and whether a bias is used; `batchnorm` records the training flag;
`leakyRelu` records the negative-slope coefficient (0.1 = 1/10 everywhere in
this file); the pooling operations record window size and stride. -/
inductive Op where
  | conv (in_channels out_channels kernel_size padding : Nat) (use_bias : Bool) (name : String)
  | batchnorm (training : Bool) (name : String)
  | leakyRelu (alpha : Rat) (name : String)
  | maxpool (pool_size strides : Nat) (name : String)
  | avgpool (pool_size strides : Nat) (name : String)
  | flatten
deriving DecidableEq, Repr

/-- `dark_conv` from the source: convolution (no bias) + batch norm +
leaky ReLU with alpha 0.1, under sub-names `/conv`, `/bn`, `/activ`. -/
def dark_conv (in_channels out_channels kernel_size padding : Nat)
    (training : Bool) (name : String) : List Op :=
  [Op.conv in_channels out_channels kernel_size padding false (name ++ "/conv"),
   Op.batchnorm training (name ++ "/bn"),
   Op.leakyRelu (1 / 10) (name ++ "/activ")]

/-- `dark_conv1x1` from the source: `dark_conv` with kernel 1, padding 0. -/
def dark_conv1x1 (in_channels out_channels : Nat) (training : Bool)
    (name : String) : List Op :=
  dark_conv in_channels out_channels 1 0 training name

/-- `dark_conv3x3` from the source: `dark_conv` with kernel 3, padding 1. -/
def dark_conv3x3 (in_channels out_channels : Nat) (training : Bool)
    (name : String) : List Op :=
  dark_conv in_channels out_channels 3 1 training name

/-- `dark_convYxY` from the source: dispatch on the `pointwise` flag. -/
def dark_convYxY (in_channels out_channels : Nat) (pointwise training : Bool)
    (name : String) : List Op :=
  if pointwise then dark_conv1x1 in_channels out_channels training name
  else dark_conv3x3 in_channels out_channels training name

/-- The inline pointwise-selection expression of `darknet` (line 219 of the
source): `(len(channels_per_stage) > 1) and not(((j + 1) % 2 == 1) ^ odd_pointwise)`,
where `stage_len` is the unit count of the stage and `j` the 0-based unit
index. -/
def unit_pointwise (stage_len j : Nat) (odd_pointwise : Bool) : Bool :=
  decide (stage_len > 1) && ! (xor (decide ((j + 1) % 2 = 1)) odd_pointwise)

/-- The inner loop of `darknet`: build the units of one stage, threading the
running `in_channels`.  `i` is the 0-based stage index, `stage_len` the unit
count of the whole stage, `j` the 0-based index of the first remaining unit.
Returns the appended operations and the final running `in_channels`. -/
def darknet_units (i stage_len : Nat) (odd_pointwise training : Bool) :
    Nat → List Nat → Nat → List Op × Nat
  | _, [], in_channels => ([], in_channels)
  | j, out_channels :: rest, in_channels =>
    let u := dark_convYxY in_channels out_channels
      (unit_pointwise stage_len j odd_pointwise) training
      ("features/stage" ++ toString (i + 1) ++ "/unit" ++ toString (j + 1))
    let r := darknet_units i stage_len odd_pointwise training (j + 1) rest out_channels
    (u ++ r.1, r.2)

/-- The outer loop of `darknet`: build each stage, then (for every stage
index `i` other than `total - 1`, where `total` is the stage count of the
whole table) a 2x2 stride-2 max pooling named `features/pool{i+1}`. -/
def darknet_stages (odd_pointwise training : Bool) (total : Nat) :
    Nat → List (List Nat) → Nat → List Op × Nat
  | _, [], in_channels => ([], in_channels)
  | i, stage :: rest, in_channels =>
    let u := darknet_units i stage.length odd_pointwise training 0 stage in_channels
    let pool : List Op :=
      if i ≠ total - 1 then [Op.maxpool 2 2 ("features/pool" ++ toString (i + 1))]
      else []
    let r := darknet_stages odd_pointwise training total (i + 1) rest u.2
    (u.1 ++ pool ++ r.1, r.2)

/-- `darknet` from the source: the stage loop, then the classifier head:
a 1x1 convolution to `classes`, an optional leaky ReLU, average pooling with
window `avg_pool_size` and stride 1, and a flatten.  The final `conv2d` call
passes neither `padding` nor `use_bias`; those defaults live in `common.py`.
Modelled from the spec: the final classifier convolution uses a bias ("with
bias, unlike stage convolutions") and, being 1x1, zero padding. -/
def darknet (channels : List (List Nat)) (odd_pointwise : Bool)
    (avg_pool_size : Nat) (cls_activ : Bool) (in_channels classes : Nat)
    (training : Bool) : List Op :=
  let s := darknet_stages odd_pointwise training channels.length 0 channels in_channels
  s.1 ++ [Op.conv s.2 classes 1 0 true "output/final_conv"]
    ++ (if cls_activ then [Op.leakyRelu (1 / 10) "output/final_activ"] else [])
    ++ [Op.avgpool avg_pool_size 1 "output/final_pool", Op.flatten]

/-- The architecture parameters `get_darknet` selects for one version. -/
structure DarknetCfg where
  channels : List (List Nat)
  odd_pointwise : Bool
  avg_pool_size : Nat
  cls_activ : Bool
deriving DecidableEq, Repr

/-- The version dispatch of `get_darknet` (lines 272-297): the three preset
tables, or an error for any other version string. -/
def darknet_version_config (version : String) : Except String DarknetCfg :=
  if version = "ref" then
    Except.ok ⟨[[16], [32], [64], [128], [256], [512], [1024]], false, 3, true⟩
  else if version = "tiny" then
    Except.ok ⟨[[16], [32], [16, 128, 16, 128], [32, 256, 32, 256],
      [64, 512, 64, 512, 128]], true, 14, false⟩
  else if version = "19" then
    Except.ok ⟨[[32], [64], [128, 64, 128], [256, 128, 256],
      [512, 256, 512, 256, 512], [1024, 512, 1024, 512, 1024]], false, 7, false⟩
  else Except.error ("Unsupported DarkNet version " ++ version)

/-- Python truthiness test `(model_name is None) or (not model_name)`:
`None` and the empty string are the falsy values of `Optional[str]`. -/
def model_name_missing : Option String → Bool
  | none => true
  | some s => decide (s = "")

/-- `get_darknet` from the source: resolve the version (raising on an unknown
one), then raise if `pretrained` is requested without a usable `model_name`;
otherwise return the configuration the closure `net_lambda` captures.  Both
errors occur before any graph operation is built. -/
def get_darknet (version : String) (model_name : Option String)
    (pretrained : Bool) : Except String DarknetCfg :=
  match darknet_version_config version with
  | Except.error e => Except.error e
  | Except.ok cfg =>
    if pretrained && model_name_missing model_name then
      Except.error
        "Parameter model_name should be properly initialized for loading pretrained model."
    else Except.ok cfg

/-- A tensor shape: `s4` is a channels-first 4-d shape (batch, channels,
height, width); `s2` is the 2-d shape produced by `flatten`. -/
inductive TShape where
  | s4 (n c h w : Nat)
  | s2 (n d : Nat)
deriving DecidableEq, Repr

/-- Modelled from the spec: shape semantics of the primitive operations,
whose implementations (`common.py`, TensorFlow) are not under `src/`.
Stride-1 convolution after explicit padding gives `h + 2p + 1 - k` (so 3x3
with padding 1 and 1x1 with padding 0 preserve the spatial extent, as the
spec's glossary states); max pooling with window `m` and stride `s` gives
`(h - m) / s + 1` (2x2 stride 2 "halves spatial dimensions", flooring at odd
extents so that step 6 collapses a 224x224 input to 1x1); average pooling is
the same with stride 1; batch normalization and the activation preserve the
shape; `flatten` returns a 2-d (batch, rest) shape. -/
def applyOp : TShape → Op → TShape
  | TShape.s4 n _ h w, Op.conv _ outC k p _ _ =>
    TShape.s4 n outC (h + 2 * p + 1 - k) (w + 2 * p + 1 - k)
  | TShape.s4 n c h w, Op.maxpool m s _ =>
    TShape.s4 n c ((h - m) / s + 1) ((w - m) / s + 1)
  | TShape.s4 n c h w, Op.avgpool m s _ =>
    TShape.s4 n c ((h - m) / s + 1) ((w - m) / s + 1)
  | TShape.s4 n c h w, Op.flatten => TShape.s2 n (c * h * w)
  | sh, _ => sh

/-- Run a list of operations on an input shape. -/
def runShape (sh : TShape) (ops : List Op) : TShape :=
  ops.foldl applyOp sh

/-- Channel count after an operation, given the count `c` before it. -/
def opChannels (c : Nat) : Op → Nat
  | Op.conv _ outC _ _ _ _ => outC
  | _ => c

/-- Modelled from the spec: trainable parameters registered by one primitive
operation (the primitives live in `common.py`/TensorFlow, not under `src/`).
A convolution registers a `k·k·in·out` kernel plus, when `use_bias`, an
`out`-sized bias; batch normalization registers a trainable scale and shift
per channel (its running statistics are not trainable variables, consistent
with the spec's fixed trainable-parameter totals); the remaining operations
register nothing.  `c` is the channel count entering the operation. -/
def opParams (c : Nat) : Op → Nat
  | Op.conv inC outC k _ b _ => k * k * inC * outC + (if b then outC else 0)
  | Op.batchnorm _ _ => 2 * c
  | _ => 0

/-- Total trainable parameters of an operation list, threading the channel
count from an initial value `c`. -/
def paramCount : Nat → List Op → Nat
  | _, [] => 0
  | c, op :: rest => opParams c op + paramCount (opChannels c op) rest

/-- Kernel size of a convolution operation, `none` for any other operation. -/
def convKernel? : Op → Option Nat
  | Op.conv _ _ k _ _ _ => some k
  | _ => none

/-- The kernel sizes of the convolutions of a trace, in order. -/
def convKernels (ops : List Op) : List Nat :=
  ops.filterMap convKernel?

/-- Declared (input, output) channels of a convolution operation. -/
def convChannelPairs? : Op → Option (Nat × Nat)
  | Op.conv inC outC _ _ _ _ => some (inC, outC)
  | _ => none

/-- The (input, output) channel pairs of the convolutions of a trace. -/
def convChannelPairs (ops : List Op) : List (Nat × Nat) :=
  ops.filterMap convChannelPairs?

/-- Bias flag of a convolution operation. -/
def convBias? : Op → Option Bool
  | Op.conv _ _ _ _ b _ => some b
  | _ => none

/-- Whether an operation is a max pooling. -/
def isMaxpool : Op → Bool
  | Op.maxpool _ _ _ => true
  | _ => false

/-- Number of units in the stages of `channels` strictly before stage `i`
(row-major position of unit `(i, 0)`). -/
def unitsBefore (channels : List (List Nat)) (i : Nat) : Nat :=
  ((channels.take i).map List.length).sum

/-- The (input, output) pairs of a chain of layers with output sizes `outs`
starting from input size `c`: each layer's input is the previous layer's
output. -/
def chainPairs : Nat → List Nat → List (Nat × Nat)
  | _, [] => []
  | c, o :: rest => (c, o) :: chainPairs o rest

/-- Number of operations the stage loop appends for a table `channels`:
three per unit plus one pooling per stage boundary. -/
def stagesOpCount (channels : List (List Nat)) : Nat :=
  3 * (channels.map List.length).sum + (channels.length - 1)


theorem convKernels_append (l1 l2 : List Op) :
    convKernels (l1 ++ l2) = convKernels l1 ++ convKernels l2 := by
  simp [convKernels, List.filterMap_append]

theorem convKernels_dark_convYxY (a b : Nat) (pw tr : Bool) (n : String) :
    convKernels (dark_convYxY a b pw tr n) = [if pw then 1 else 3] := by
  cases pw <;>
    simp [dark_convYxY, dark_conv1x1, dark_conv3x3, dark_conv, convKernels, convKernel?]

theorem range_map_shift (n j0 : Nat) (f : Nat → Nat) :
    (List.range (n + 1)).map (fun k => f (j0 + k))
      = f j0 :: (List.range n).map (fun k => f ((j0 + 1) + k)) := by
  rw [List.range_succ_eq_map, List.map_cons, List.map_map]
  simp only [Nat.add_zero]
  congr 1
  apply List.map_congr_left
  intro k _
  simp only [Function.comp_apply]
  congr 1
  omega

theorem darknet_units_kernels (i stage_len : Nat) (odd_pointwise training : Bool)
    (stage : List Nat) : ∀ (j0 in_c : Nat),
    convKernels (darknet_units i stage_len odd_pointwise training j0 stage in_c).1
      = (List.range stage.length).map
          (fun k => if unit_pointwise stage_len (j0 + k) odd_pointwise then 1 else 3) := by
  induction stage with
  | nil => intro j0 in_c; simp [darknet_units, convKernels]
  | cons o rest ih =>
    intro j0 in_c
    simp only [darknet_units, convKernels_append, convKernels_dark_convYxY, ih,
      List.length_cons]
    rw [range_map_shift rest.length j0
      (fun k => if unit_pointwise stage_len k odd_pointwise then 1 else 3)]
    simp

theorem convKernels_pool (c : Prop) [Decidable c] (a b : Nat) (n : String) :
    convKernels (if c then [Op.maxpool a b n] else []) = [] := by
  by_cases h : c <;> simp [h, convKernels, convKernel?]

theorem darknet_stages_kernels (odd_pointwise training : Bool) (total : Nat)
    (cs : List (List Nat)) : ∀ (i in_c : Nat),
    convKernels (darknet_stages odd_pointwise training total i cs in_c).1
      = (cs.map (fun st => (List.range st.length).map
          (fun j => if unit_pointwise st.length j odd_pointwise then 1 else 3))).flatten := by
  induction cs with
  | nil => intro i in_c; simp [darknet_stages, convKernels]
  | cons st rest ih =>
    intro i in_c
    simp only [darknet_stages, convKernels_append, darknet_units_kernels, ih,
      convKernels_pool, List.map_cons, List.flatten_cons]
    simp

theorem convKernels_head (c classes avg : Nat) (cls : Bool) :
    convKernels ([Op.conv c classes 1 0 true "output/final_conv"]
      ++ (if cls then [Op.leakyRelu (1 / 10) "output/final_activ"] else [])
      ++ [Op.avgpool avg 1 "output/final_pool", Op.flatten]) = [1] := by
  cases cls <;> rfl

theorem darknet_kernels (channels : List (List Nat)) (odd_pointwise : Bool)
    (avg_pool_size : Nat) (cls_activ : Bool) (in_channels classes : Nat)
    (training : Bool) :
    convKernels (darknet channels odd_pointwise avg_pool_size cls_activ
        in_channels classes training)
      = (channels.map (fun st => (List.range st.length).map
          (fun j => if unit_pointwise st.length j odd_pointwise then 1 else 3))).flatten
        ++ [1] := by
  unfold darknet
  rw [convKernels_append, convKernels_append, convKernels_append,
    darknet_stages_kernels]
  cases cls_activ <;> simp [convKernels, convKernel?]

theorem flatten_getElem_chunk (l : List (List Nat)) : ∀ (i j : Nat),
    j < (l.getD i []).length →
    l.flatten[((l.take i).map List.length).sum + j]? = (l.getD i [])[j]? := by
  induction l with
  | nil => intro i j h; simp [List.getD] at h
  | cons a l ih =>
    intro i j h
    cases i with
    | zero =>
      simp only [List.getD_cons_zero] at h ⊢
      simp only [List.take_zero, List.map_nil, List.sum_nil, Nat.zero_add,
        List.flatten_cons]
      exact List.getElem?_append_left h
    | succ i =>
      simp only [List.getD_cons_succ] at h ⊢
      simp only [List.take_succ_cons, List.map_cons, List.sum_cons, List.flatten_cons]
      rw [Nat.add_assoc, List.getElem?_append_right (Nat.le_add_right _ _),
        Nat.add_sub_cancel_left]
      exact ih i j h

theorem unitsBefore_lt (channels : List (List Nat)) : ∀ (i j : Nat),
    j < (channels.getD i []).length →
    unitsBefore channels i + j < (channels.map List.length).sum := by
  induction channels with
  | nil => intro i j h; simp [List.getD] at h
  | cons a l ih =>
    intro i j h
    cases i with
    | zero =>
      simp only [List.getD_cons_zero] at h
      simp only [unitsBefore, List.take_zero, List.map_nil, List.sum_nil,
        List.map_cons, List.sum_cons]
      omega
    | succ i =>
      simp only [List.getD_cons_succ] at h
      have := ih i j h
      simp only [unitsBefore, List.take_succ_cons, List.map_cons, List.sum_cons] at *
      omega

theorem getD_map_keep_nil (f : List Nat → List Nat) (hf : f [] = [])
    (l : List (List Nat)) : ∀ i, (l.map f).getD i [] = f (l.getD i []) := by
  induction l with
  | nil => intro i; simp [List.getD, hf]
  | cons a l ih =>
    intro i
    cases i with
    | zero => simp
    | succ i => simpa using ih i

theorem darknet_unit_kernel (channels : List (List Nat)) (odd_pointwise : Bool)
    (avg_pool_size : Nat) (cls_activ : Bool) (in_channels classes : Nat)
    (training : Bool) (i j : Nat) (hj : j < (channels.getD i []).length) :
    (convKernels (darknet channels odd_pointwise avg_pool_size cls_activ
        in_channels classes training))[unitsBefore channels i + j]?
      = some (if unit_pointwise (channels.getD i []).length j odd_pointwise
          then 1 else 3) := by
  rw [darknet_kernels]
  set f : List Nat → List Nat := fun st => (List.range st.length).map
    (fun j => if unit_pointwise st.length j odd_pointwise then 1 else 3) with hf
  have hlen_f : ∀ st, (f st).length = st.length := by
    intro st; simp [hf]
  have hfl : ((channels.map f).map List.length).sum = (channels.map List.length).sum := by
    rw [List.map_map]
    congr 1
    exact List.map_congr_left (fun st _ => hlen_f st)
  have hflat_len : (channels.map f).flatten.length = (channels.map List.length).sum := by
    rw [List.length_flatten, ← hfl, List.map_map]
  have htake : (((channels.map f).take i).map List.length).sum = unitsBefore channels i := by
    rw [← List.map_take, List.map_map]
    unfold unitsBefore
    congr 1
    exact List.map_congr_left (fun st _ => hlen_f st)
  have hgetD : (channels.map f).getD i [] = f (channels.getD i []) :=
    getD_map_keep_nil f (by simp [hf]) channels i
  have hlt : unitsBefore channels i + j < (channels.map f).flatten.length := by
    rw [hflat_len]; exact unitsBefore_lt channels i j hj
  rw [List.getElem?_append_left hlt]
  have hchunk := flatten_getElem_chunk (channels.map f) i j
    (by rw [hgetD, hlen_f]; exact hj)
  rw [htake] at hchunk
  rw [hchunk, hgetD, hf]
  simp only [List.getElem?_map]
  rw [List.getElem?_range hj]
  rfl

theorem unit_pointwise_iff (len j : Nat) (b : Bool) :
    unit_pointwise len j b = true ↔ (1 < len ∧ ((j + 1) % 2 = 1 ↔ b = true)) := by
  cases b <;> by_cases hp : (j + 1) % 2 = 1 <;>
    simp [unit_pointwise, hp, gt_iff_lt, decide_eq_true_iff]

/-- C1: in the assembled trace, unit `(i, j)` (0-based indices; the unit sits
at row-major position `unitsBefore channels i + j` among the convolutions of
the trace) is built with a pointwise (kernel 1) convolution iff its stage has
more than one unit and NOT(((j+1) is odd) XOR odd_pointwise), i.e. iff
`(j+1) odd ↔ odd_pointwise`; and a stage with exactly one unit always yields
the spatial kernel 3, regardless of the flag. -/
theorem spec_C1 (channels : List (List Nat)) (odd_pointwise : Bool)
    (avg_pool_size : Nat) (cls_activ : Bool) (in_channels classes : Nat)
    (training : Bool) (i j : Nat) (hi : i < channels.length)
    (hj : j < (channels.getD i []).length) :
    ((convKernels (darknet channels odd_pointwise avg_pool_size cls_activ
        in_channels classes training))[unitsBefore channels i + j]? = some 1
      ↔ (1 < (channels.getD i []).length ∧ ((j + 1) % 2 = 1 ↔ odd_pointwise = true)))
    ∧ ((channels.getD i []).length = 1 →
      (convKernels (darknet channels odd_pointwise avg_pool_size cls_activ
        in_channels classes training))[unitsBefore channels i + j]? = some 3) := by
  rw [darknet_unit_kernel channels odd_pointwise avg_pool_size cls_activ
    in_channels classes training i j hj]
  constructor
  · rw [← unit_pointwise_iff]
    cases h : unit_pointwise (channels.getD i []).length j odd_pointwise <;> simp
  · intro hlen
    rw [hlen]
    rfl

theorem spec_C1_witness :
    ((convKernels (darknet [[16], [64, 64]] true 3 true 3 1000 false))[unitsBefore [[16], [64, 64]] 1 + 0]? = some 1
      ↔ (1 < (([[16], [64, 64]] : List (List Nat)).getD 1 []).length ∧ ((0 + 1) % 2 = 1 ↔ true = true)))
    ∧ ((([[16], [64, 64]] : List (List Nat)).getD 1 []).length = 1 →
      (convKernels (darknet [[16], [64, 64]] true 3 true 3 1000 false))[unitsBefore [[16], [64, 64]] 1 + 0]? = some 3) :=
  spec_C1 [[16], [64, 64]] true 3 true 3 1000 false 1 0 (by decide) (by decide)

/-- C2 counterexample: the claim says that with `odd_pointwise = false` the
unit at 1-based odd position 1 of a 2-unit stage is built pointwise
(kernel 1); the code builds it with the spatial kernel 3 (the code's
`not(((j+1) % 2 == 1) ^ odd_pointwise)` is true exactly when the position
parity EQUALS the flag, not when it differs from it). -/
theorem spec_C2_counterexample :
    (convKernels (darknet [[16, 32]] false 3 true 3 1000 false))[0]? = some 3
    ∧ ¬ ((convKernels (darknet [[16, 32]] false 3 true 3 1000 false))[0]? = some 1) := by
  constructor
  · rfl
  · intro h
    simp [darknet, darknet_stages, darknet_units, dark_convYxY, dark_conv1x1,
      dark_conv3x3, dark_conv, unit_pointwise, convKernels, convKernel?] at h

theorem unit_pointwise_parity (len j : Nat) (b : Bool) (hlen : 1 < len) :
    (if unit_pointwise len j b then (1 : Nat) else 3)
      = (if (j + 1) % 2 = 1 then (if b then 1 else 3) else (if b then 3 else 1)) := by
  have h1 : decide (len > 1) = true := by simpa [gt_iff_lt] using hlen
  cases b <;> by_cases hp : (j + 1) % 2 = 1 <;> simp [unit_pointwise, h1, hp]

/-- C2 amended: for a stage with more than one unit, when `odd_pointwise` is
TRUE the units at 1-based odd positions are pointwise (kernel 1) and even
positions spatial (kernel 3); when `odd_pointwise` is FALSE this parity
assignment is inverted (odd positions spatial, even positions pointwise). -/
theorem spec_C2 (channels : List (List Nat)) (odd_pointwise : Bool)
    (avg_pool_size : Nat) (cls_activ : Bool) (in_channels classes : Nat)
    (training : Bool) (i j : Nat) (hi : i < channels.length)
    (hj : j < (channels.getD i []).length)
    (hlen : 1 < (channels.getD i []).length) :
    (convKernels (darknet channels odd_pointwise avg_pool_size cls_activ
        in_channels classes training))[unitsBefore channels i + j]?
      = some (if (j + 1) % 2 = 1
          then (if odd_pointwise then 1 else 3)
          else (if odd_pointwise then 3 else 1)) := by
  rw [darknet_unit_kernel channels odd_pointwise avg_pool_size cls_activ
    in_channels classes training i j hj, unit_pointwise_parity _ _ _ hlen]

theorem spec_C2_witness :
    (convKernels (darknet [[16], [64, 64]] true 3 true 3 1000 false))[unitsBefore [[16], [64, 64]] 1 + 0]?
      = some (if (0 + 1) % 2 = 1 then (if true then 1 else 3) else (if true then 3 else 1)) :=
  spec_C2 [[16], [64, 64]] true 3 true 3 1000 false 1 0 (by decide) (by decide) (by decide)

theorem convChannelPairs_append (l1 l2 : List Op) :
    convChannelPairs (l1 ++ l2) = convChannelPairs l1 ++ convChannelPairs l2 := by
  simp [convChannelPairs, List.filterMap_append]

theorem convChannelPairs_dark_convYxY (a b : Nat) (pw tr : Bool) (n : String) :
    convChannelPairs (dark_convYxY a b pw tr n) = [(a, b)] := by
  cases pw <;>
    simp [dark_convYxY, dark_conv1x1, dark_conv3x3, dark_conv, convChannelPairs, convChannelPairs?]

theorem convChannelPairs_pool (c : Prop) [Decidable c] (a b : Nat) (n : String) :
    convChannelPairs (if c then [Op.maxpool a b n] else []) = [] := by
  by_cases h : c <;> simp [h, convChannelPairs, convChannelPairs?]

theorem darknet_units_convChannelPairs (i stage_len : Nat) (odd_pointwise training : Bool)
    (stage : List Nat) : ∀ (j0 in_c : Nat),
    convChannelPairs (darknet_units i stage_len odd_pointwise training j0 stage in_c).1
      = chainPairs in_c stage := by
  induction stage with
  | nil => intro j0 in_c; simp [darknet_units, convChannelPairs, chainPairs]
  | cons o rest ih =>
    intro j0 in_c
    simp only [darknet_units, convChannelPairs_append, convChannelPairs_dark_convYxY, ih, chainPairs]
    simp

theorem darknet_units_snd (i stage_len : Nat) (odd_pointwise training : Bool)
    (stage : List Nat) : ∀ (j0 in_c : Nat),
    (darknet_units i stage_len odd_pointwise training j0 stage in_c).2
      = stage.getLastD in_c := by
  induction stage with
  | nil => intro j0 in_c; simp [darknet_units]
  | cons o rest ih =>
    intro j0 in_c
    simp only [darknet_units, ih, List.getLastD_cons]

theorem getLastD_append_chunk (l1 l2 : List Nat) : ∀ (c : Nat),
    (l1 ++ l2).getLastD c = l2.getLastD (l1.getLastD c) := by
  induction l1 with
  | nil => intro c; simp
  | cons a l ih =>
    intro c
    simp only [List.cons_append, List.getLastD_cons, ih]

theorem chainPairs_append (l1 l2 : List Nat) : ∀ (c : Nat),
    chainPairs c (l1 ++ l2) = chainPairs c l1 ++ chainPairs (l1.getLastD c) l2 := by
  induction l1 with
  | nil => intro c; simp [chainPairs]
  | cons a l ih =>
    intro c
    simp only [List.cons_append, chainPairs, List.getLastD_cons]
    exact congrArg (fun t => (c, a) :: t) (ih a)

theorem darknet_stages_convChannelPairs (odd_pointwise training : Bool) (total : Nat)
    (cs : List (List Nat)) : ∀ (i in_c : Nat),
    convChannelPairs (darknet_stages odd_pointwise training total i cs in_c).1
      = chainPairs in_c cs.flatten := by
  induction cs with
  | nil => intro i in_c; simp [darknet_stages, convChannelPairs, chainPairs]
  | cons st rest ih =>
    intro i in_c
    simp only [darknet_stages, convChannelPairs_append, darknet_units_convChannelPairs,
      darknet_units_snd, convChannelPairs_pool, ih, List.flatten_cons,
      chainPairs_append st rest.flatten in_c]
    simp

theorem darknet_stages_snd (odd_pointwise training : Bool) (total : Nat)
    (cs : List (List Nat)) : ∀ (i in_c : Nat),
    (darknet_stages odd_pointwise training total i cs in_c).2
      = cs.flatten.getLastD in_c := by
  induction cs with
  | nil => intro i in_c; simp [darknet_stages]
  | cons st rest ih =>
    intro i in_c
    simp only [darknet_stages, ih, darknet_units_snd, List.flatten_cons,
      getLastD_append_chunk]

/-- C3: the (declared input, output) channel pairs of the convolutions of the
assembled trace, in build order, are exactly the chain starting at the
configuration's `in_channels` through the row-major flattening of the channel
table (each unit's input is the previous unit's output, across stage
boundaries), followed by the final classifier convolution whose input is the
last entry of the table (or `in_channels` for an empty table) and whose
output is `classes`. -/
theorem spec_C3 (channels : List (List Nat)) (odd_pointwise : Bool)
    (avg_pool_size : Nat) (cls_activ : Bool) (in_channels classes : Nat)
    (training : Bool) :
    convChannelPairs (darknet channels odd_pointwise avg_pool_size cls_activ
        in_channels classes training)
      = chainPairs in_channels channels.flatten
        ++ [(channels.flatten.getLastD in_channels, classes)] := by
  unfold darknet
  rw [convChannelPairs_append, convChannelPairs_append, convChannelPairs_append, darknet_stages_convChannelPairs,
    darknet_stages_snd]
  cases cls_activ <;> simp [convChannelPairs, convChannelPairs?]

/-- C5: `dark_conv` is exactly the three operations, in order: a convolution
with the given kernel size and padding and no bias, a batch normalization
conditioned on the training flag, and a leaky ReLU with slope 0.1; the two
specializations fix kernel 1 / padding 0 and kernel 3 / padding 1 and are
otherwise identical. -/
theorem spec_C5 (in_channels out_channels kernel_size padding : Nat)
    (training : Bool) (name : String) :
    dark_conv in_channels out_channels kernel_size padding training name
      = [Op.conv in_channels out_channels kernel_size padding false (name ++ "/conv"),
         Op.batchnorm training (name ++ "/bn"),
         Op.leakyRelu (1 / 10) (name ++ "/activ")]
    ∧ dark_conv1x1 in_channels out_channels training name
      = dark_conv in_channels out_channels 1 0 training name
    ∧ dark_conv3x3 in_channels out_channels training name
      = dark_conv in_channels out_channels 3 1 training name :=
  ⟨rfl, rfl, rfl⟩

/-- C10: with an empty channel table the stage loop contributes nothing at
all (no unit, no pooling, no error — the table invariant is never checked):
the trace is exactly the classification head, whose 1x1 convolution maps the
configuration's `in_channels` to `classes`, applied directly to the input. -/
theorem spec_C10 (odd_pointwise : Bool) (avg_pool_size : Nat)
    (cls_activ : Bool) (in_channels classes : Nat) (training : Bool) :
    darknet [] odd_pointwise avg_pool_size cls_activ in_channels classes training
      = [Op.conv in_channels classes 1 0 true "output/final_conv"]
        ++ (if cls_activ then [Op.leakyRelu (1 / 10) "output/final_activ"] else [])
        ++ [Op.avgpool avg_pool_size 1 "output/final_pool", Op.flatten] := by
  cases cls_activ <;> rfl

theorem filter_maxpool_dark_convYxY (a b : Nat) (pw tr : Bool) (n : String) :
    (dark_convYxY a b pw tr n).filter isMaxpool = [] := by
  cases pw <;> rfl

theorem darknet_units_filter_maxpool (i stage_len : Nat)
    (odd_pointwise training : Bool) (stage : List Nat) : ∀ (j0 in_c : Nat),
    ((darknet_units i stage_len odd_pointwise training j0 stage in_c).1.filter
      isMaxpool) = [] := by
  induction stage with
  | nil => intro j0 in_c; rfl
  | cons o rest ih =>
    intro j0 in_c
    simp only [darknet_units, List.filter_append, filter_maxpool_dark_convYxY, ih,
      List.append_nil]

theorem dark_convYxY_length (a b : Nat) (pw tr : Bool) (n : String) :
    (dark_convYxY a b pw tr n).length = 3 := by
  cases pw <;> rfl

theorem darknet_units_length (i stage_len : Nat) (odd_pointwise training : Bool)
    (stage : List Nat) : ∀ (j0 in_c : Nat),
    (darknet_units i stage_len odd_pointwise training j0 stage in_c).1.length
      = 3 * stage.length := by
  induction stage with
  | nil => intro j0 in_c; rfl
  | cons o rest ih =>
    intro j0 in_c
    simp only [darknet_units, List.length_append, dark_convYxY_length, ih,
      List.length_cons]
    omega

theorem darknet_stages_length (odd_pointwise training : Bool) (total : Nat) :
    ∀ (cs : List (List Nat)) (i in_c : Nat), i + cs.length = total →
    (darknet_stages odd_pointwise training total i cs in_c).1.length
      = 3 * (cs.map List.length).sum + (cs.length - 1) := by
  intro cs
  induction cs with
  | nil => intro i in_c _; rfl
  | cons st rest ih =>
    intro i in_c hinv
    simp only [darknet_stages, List.length_append, darknet_units_length]
    cases rest with
    | nil =>
      have hi : ¬ (i ≠ total - 1) := by
        simp only [List.length_cons, List.length_nil] at hinv
        omega
      rw [if_neg hi]
      simp [darknet_stages]
    | cons b bs =>
      have hi : i ≠ total - 1 := by
        simp only [List.length_cons] at hinv
        omega
      rw [if_pos hi]
      rw [ih (i + 1) _ (by simp only [List.length_cons] at hinv ⊢; omega)]
      simp only [List.map_cons, List.sum_cons, List.length_cons, List.length_nil]
      omega

theorem darknet_stages_filter_maxpool (odd_pointwise training : Bool)
    (total : Nat) : ∀ (cs : List (List Nat)) (i in_c : Nat),
    i + cs.length = total →
    ((darknet_stages odd_pointwise training total i cs in_c).1.filter isMaxpool)
      = (List.range (cs.length - 1)).map
          (fun k => Op.maxpool 2 2 ("features/pool" ++ toString (i + k + 1))) := by
  intro cs
  induction cs with
  | nil => intro i in_c _; rfl
  | cons st rest ih =>
    intro i in_c hinv
    simp only [darknet_stages, List.filter_append, darknet_units_filter_maxpool,
      List.nil_append]
    cases rest with
    | nil =>
      have hi : ¬ (i ≠ total - 1) := by
        simp only [List.length_cons, List.length_nil] at hinv
        omega
      rw [if_neg hi]
      rfl
    | cons b bs =>
      have hi : i ≠ total - 1 := by
        simp only [List.length_cons] at hinv
        omega
      rw [if_pos hi]
      rw [ih (i + 1) _ (by simp only [List.length_cons] at hinv ⊢; omega)]
      simp only [List.length_cons, Nat.succ_sub_one, List.range_succ_eq_map,
        List.map_cons, List.map_map]
      have hfil : (([Op.maxpool 2 2 ("features/pool" ++ toString (i + 1))]).filter
          isMaxpool) = [Op.maxpool 2 2 ("features/pool" ++ toString (i + 1))] := rfl
      rw [hfil]
      simp only [List.cons_append, List.nil_append, Nat.add_zero]
      congr 1
      apply List.map_congr_left
      intro k _
      simp only [Function.comp_apply]
      have : i + 1 + k + 1 = i + (k + 1) + 1 := by omega
      rw [this]

theorem unitsBefore_cons_succ (st : List Nat) (rest : List (List Nat)) (k : Nat) :
    unitsBefore (st :: rest) (k + 1) = st.length + unitsBefore rest k := by
  simp [unitsBefore, List.take_succ_cons]

theorem darknet_stages_pool_getElem (odd_pointwise training : Bool)
    (total : Nat) : ∀ (cs : List (List Nat)) (i in_c k : Nat),
    i + cs.length = total → k < cs.length - 1 →
    (darknet_stages odd_pointwise training total i cs in_c).1[3 * unitsBefore cs (k + 1) + k]?
      = some (Op.maxpool 2 2 ("features/pool" ++ toString (i + k + 1))) := by
  intro cs
  induction cs with
  | nil => intro i in_c k _ hk; simp at hk
  | cons st rest ih =>
    intro i in_c k hinv hk
    simp only [List.length_cons, Nat.succ_sub_one] at hk
    have hi : i ≠ total - 1 := by
      simp only [List.length_cons] at hinv
      omega
    simp only [darknet_stages, if_pos hi]
    have hu : (darknet_units i st.length odd_pointwise training 0 st in_c).1.length
        = 3 * st.length := darknet_units_length i st.length odd_pointwise training st 0 in_c
    cases k with
    | zero =>
      rw [unitsBefore_cons_succ]
      simp only [unitsBefore, List.take_zero, List.map_nil, List.sum_nil,
        Nat.add_zero]
      rw [List.getElem?_append_left (by
        simp only [List.length_append, hu, List.length_cons, List.length_nil]
        omega)]
      rw [List.getElem?_append_right (by omega : (darknet_units i st.length
        odd_pointwise training 0 st in_c).1.length ≤ 3 * st.length)]
      rw [hu]
      simp
    | succ k =>
      rw [unitsBefore_cons_succ]
      have harith : 3 * (st.length + unitsBefore rest (k + 1)) + (k + 1)
          = (3 * st.length + 1) + (3 * unitsBefore rest (k + 1) + k) := by omega
      rw [harith]
      rw [List.getElem?_append_right (by
        simp only [List.length_append, hu, List.length_cons, List.length_nil]
        omega)]
      have hlen12 : ((darknet_units i st.length odd_pointwise training 0 st in_c).1
          ++ [Op.maxpool 2 2 ("features/pool" ++ toString (i + 1))]).length
          = 3 * st.length + 1 := by
        simp only [List.length_append, hu, List.length_cons, List.length_nil]
      rw [hlen12, Nat.add_sub_cancel_left]
      rw [ih (i + 1) _ k (by simp only [List.length_cons] at hinv ⊢; omega)
        (by omega)]
      have : i + 1 + k + 1 = i + (k + 1) + 1 := by omega
      rw [this]

theorem sum_take_le (l : List (List Nat)) (m : Nat) :
    ((l.take m).map List.length).sum ≤ (l.map List.length).sum := by
  conv_rhs => rw [← List.take_append_drop m l]
  rw [List.map_append, List.sum_append]
  exact Nat.le_add_right _ _

theorem darknet_filter_maxpool (channels : List (List Nat)) (odd_pointwise : Bool)
    (avg_pool_size : Nat) (cls_activ : Bool) (in_channels classes : Nat)
    (training : Bool) :
    (darknet channels odd_pointwise avg_pool_size cls_activ in_channels classes
        training).filter isMaxpool
      = ((darknet_stages odd_pointwise training channels.length 0 channels
          in_channels).1).filter isMaxpool := by
  unfold darknet
  simp only [List.filter_append]
  cases cls_activ <;> simp [isMaxpool, List.filter]

/-- C4: the max-pooling operations of the assembled trace are exactly one
per stage boundary: `channels.length - 1` of them, each with window 2 and
stride 2, named `features/pool{k+1}` in stage order, and none anywhere else
in the trace; and the `k`-th of them sits at trace position
`3 * unitsBefore channels (k+1) + k`, i.e. immediately after the three
operations of the last unit of stage `k` (all built units of stages
`0..k` contribute three operations each and the `k` earlier poolings
precede it). -/
theorem spec_C4 (channels : List (List Nat)) (odd_pointwise : Bool)
    (avg_pool_size : Nat) (cls_activ : Bool) (in_channels classes : Nat)
    (training : Bool) :
    ((darknet channels odd_pointwise avg_pool_size cls_activ in_channels classes
        training).filter isMaxpool
      = (List.range (channels.length - 1)).map
          (fun k => Op.maxpool 2 2 ("features/pool" ++ toString (k + 1))))
    ∧ ∀ k, k < channels.length - 1 →
      (darknet channels odd_pointwise avg_pool_size cls_activ in_channels classes
        training)[3 * unitsBefore channels (k + 1) + k]?
        = some (Op.maxpool 2 2 ("features/pool" ++ toString (k + 1))) := by
  constructor
  · rw [darknet_filter_maxpool]
    rw [darknet_stages_filter_maxpool odd_pointwise training channels.length
      channels 0 in_channels (by omega)]
    apply List.map_congr_left
    intro k _
    rw [Nat.zero_add]
  · intro k hk
    have hs1 := darknet_stages_length odd_pointwise training channels.length
      channels 0 in_channels (by omega)
    have hub := sum_take_le channels (k + 1)
    have hlt : 3 * unitsBefore channels (k + 1) + k
        < (darknet_stages odd_pointwise training channels.length 0 channels
            in_channels).1.length := by
      rw [hs1]
      unfold unitsBefore
      omega
    unfold darknet
    rw [List.getElem?_append_left (by
      simp only [List.length_append]
      omega)]
    rw [List.getElem?_append_left (by
      simp only [List.length_append]
      omega)]
    rw [List.getElem?_append_left hlt]
    rw [darknet_stages_pool_getElem odd_pointwise training channels.length
      channels 0 in_channels k (by omega) hk]
    rw [Nat.zero_add]

theorem spec_C4_witness :
    ((darknet [[4], [5, 6], [7]] false 3 true 3 1000 false).filter isMaxpool
      = (List.range (([[4], [5, 6], [7]] : List (List Nat)).length - 1)).map
          (fun k => Op.maxpool 2 2 ("features/pool" ++ toString (k + 1))))
    ∧ (darknet [[4], [5, 6], [7]] false 3 true 3 1000 false)[3 * unitsBefore [[4], [5, 6], [7]] (0 + 1) + 0]?
        = some (Op.maxpool 2 2 ("features/pool" ++ toString (0 + 1))) :=
  ⟨(spec_C4 [[4], [5, 6], [7]] false 3 true 3 1000 false).1,
   (spec_C4 [[4], [5, 6], [7]] false 3 true 3 1000 false).2 0 (by decide)⟩

theorem convBias_dark_convYxY (a b : Nat) (pw tr : Bool) (n : String) :
    (dark_convYxY a b pw tr n).filterMap convBias? = [false] := by
  cases pw <;> rfl

theorem darknet_units_bias (i stage_len : Nat) (odd_pointwise training : Bool)
    (stage : List Nat) : ∀ (j0 in_c : Nat),
    (darknet_units i stage_len odd_pointwise training j0 stage in_c).1.filterMap
      convBias? = List.replicate stage.length false := by
  induction stage with
  | nil => intro j0 in_c; rfl
  | cons o rest ih =>
    intro j0 in_c
    simp only [darknet_units, List.filterMap_append, convBias_dark_convYxY, ih,
      List.length_cons, List.replicate_succ]
    rfl

theorem darknet_stages_bias (odd_pointwise training : Bool) (total : Nat)
    (cs : List (List Nat)) : ∀ (i in_c : Nat),
    (darknet_stages odd_pointwise training total i cs in_c).1.filterMap convBias?
      = List.replicate ((cs.map List.length).sum) false := by
  induction cs with
  | nil => intro i in_c; rfl
  | cons st rest ih =>
    intro i in_c
    simp only [darknet_stages, List.filterMap_append, darknet_units_bias, ih,
      List.map_cons, List.sum_cons, List.replicate_add]
    by_cases h : i ≠ total - 1 <;> simp [h, convBias?]

/-- C6: dropping the operations of the stage loop, the remainder of the
assembled trace is exactly, in order: a 1x1 convolution from the running
`in_channels` (the last entry of the channel table, or the configuration's
`in_channels` for an empty table) to `classes` WITH a bias; a leaky ReLU of
slope 0.1 present iff `cls_activ`; an average pooling with window
`avg_pool_size` and stride 1; and a flatten, which ends the trace.  In
contrast, every convolution among the stage operations carries no bias. -/
theorem spec_C6 (channels : List (List Nat)) (odd_pointwise : Bool)
    (avg_pool_size : Nat) (cls_activ : Bool) (in_channels classes : Nat)
    (training : Bool) :
    ((darknet channels odd_pointwise avg_pool_size cls_activ in_channels classes
        training).drop (stagesOpCount channels)
      = [Op.conv (channels.flatten.getLastD in_channels) classes 1 0 true
          "output/final_conv"]
        ++ (if cls_activ then [Op.leakyRelu (1 / 10) "output/final_activ"] else [])
        ++ [Op.avgpool avg_pool_size 1 "output/final_pool", Op.flatten])
    ∧ ∀ op ∈ (darknet channels odd_pointwise avg_pool_size cls_activ in_channels
        classes training).take (stagesOpCount channels),
      ∀ b, convBias? op = some b → b = false := by
  have hslen : (darknet_stages odd_pointwise training channels.length 0 channels
      in_channels).1.length = stagesOpCount channels := by
    rw [darknet_stages_length odd_pointwise training channels.length channels 0
      in_channels (by omega)]
    rfl
  constructor
  · unfold darknet
    rw [List.append_assoc, List.append_assoc, ← hslen, List.drop_left]
    rw [darknet_stages_snd]
    rw [← List.append_assoc]
  · intro op hmem b hbias
    unfold darknet at hmem
    rw [List.append_assoc, List.append_assoc, ← hslen, List.take_left] at hmem
    have hb : b ∈ (darknet_stages odd_pointwise training channels.length 0
        channels in_channels).1.filterMap convBias? :=
      List.mem_filterMap.2 ⟨op, hmem, hbias⟩
    rw [darknet_stages_bias] at hb
    exact List.eq_of_mem_replicate hb

theorem spec_C6_witness :
    ((darknet [[4], [5]] false 3 true 3 1000 false).drop (stagesOpCount [[4], [5]])
      = [Op.conv (([[4], [5]] : List (List Nat)).flatten.getLastD 3) 1000 1 0 true
          "output/final_conv"]
        ++ (if true then [Op.leakyRelu (1 / 10) "output/final_activ"] else [])
        ++ [Op.avgpool 3 1 "output/final_pool", Op.flatten])
    ∧ (false : Bool) = false :=
  ⟨(spec_C6 [[4], [5]] false 3 true 3 1000 false).1,
   (spec_C6 [[4], [5]] false 3 true 3 1000 false).2
     (Op.conv 3 4 3 1 false "features/stage1/unit1/conv") (by decide) false
     (by decide)⟩

/-- C7: for each preset version, resolving the configuration and counting the
trainable parameters of the graph assembled with `in_channels = 3` and
`classes = 1000` gives the known totals: 7319416 for "ref", 1042104 for
"tiny", 20842376 for "19". -/
theorem spec_C7 :
    (Except.map (fun cfg : DarknetCfg => paramCount 3 (darknet cfg.channels
        cfg.odd_pointwise cfg.avg_pool_size cfg.cls_activ 3 1000 false))
      (get_darknet "ref" (some "darknet_ref") false) = Except.ok 7319416)
    ∧ (Except.map (fun cfg : DarknetCfg => paramCount 3 (darknet cfg.channels
        cfg.odd_pointwise cfg.avg_pool_size cfg.cls_activ 3 1000 false))
      (get_darknet "tiny" (some "darknet_tiny") false) = Except.ok 1042104)
    ∧ (Except.map (fun cfg : DarknetCfg => paramCount 3 (darknet cfg.channels
        cfg.odd_pointwise cfg.avg_pool_size cfg.cls_activ 3 1000 false))
      (get_darknet "19" (some "darknet19") false) = Except.ok 20842376) :=
  ⟨rfl, rfl, rfl⟩

/-- C8: for each preset version, running the assembled graph's shape
semantics on an input of shape (1, 3, 224, 224) yields the 2-d output shape
(1, 1000). -/
theorem spec_C8 :
    (Except.map (fun cfg : DarknetCfg => runShape (TShape.s4 1 3 224 224)
        (darknet cfg.channels cfg.odd_pointwise cfg.avg_pool_size cfg.cls_activ
          3 1000 false))
      (get_darknet "ref" (some "darknet_ref") false) = Except.ok (TShape.s2 1 1000))
    ∧ (Except.map (fun cfg : DarknetCfg => runShape (TShape.s4 1 3 224 224)
        (darknet cfg.channels cfg.odd_pointwise cfg.avg_pool_size cfg.cls_activ
          3 1000 false))
      (get_darknet "tiny" (some "darknet_tiny") false) = Except.ok (TShape.s2 1 1000))
    ∧ (Except.map (fun cfg : DarknetCfg => runShape (TShape.s4 1 3 224 224)
        (darknet cfg.channels cfg.odd_pointwise cfg.avg_pool_size cfg.cls_activ
          3 1000 false))
      (get_darknet "19" (some "darknet19") false) = Except.ok (TShape.s2 1 1000)) :=
  ⟨rfl, rfl, rfl⟩

/-- C9: the construction entry point returns an error — before any graph
operation is built, since the returned configuration has not yet been fed to
the stage assembler — iff the version is none of "ref", "tiny", "19", or
`pretrained` is requested while `model_name` is `none` or empty; for a
recognized version with a usable model name it returns the configuration. -/
theorem spec_C9 (version : String) (model_name : Option String)
    (pretrained : Bool) :
    (∃ e, get_darknet version model_name pretrained = Except.error e)
      ↔ (¬ (version = "ref" ∨ version = "tiny" ∨ version = "19")
          ∨ (pretrained = true ∧ (model_name = none ∨ model_name = some ""))) := by
  unfold get_darknet darknet_version_config
  by_cases h1 : version = "ref" <;> by_cases h2 : version = "tiny" <;>
    by_cases h3 : version = "19" <;>
    cases pretrained <;> rcases model_name with _ | s <;>
    first
    | (by_cases hs : s = "" <;> simp_all [model_name_missing])
    | simp_all [model_name_missing]
